import Mathlib

/-!
Verification of the WebAssembly IR core in `src/tools/optimizer/wasm.h`:
the value-type and operator model, the tagged literal, the expression node
model, the children-first walker/rewriter, and the canonical text printer.

Modelling conventions:
* Machine integers (`int32_t`, `int64_t`, `int`) are modelled as `Int`;
  `unsigned` sizes and counts as `Nat`.  No arithmetic overflow occurs in
  the embedded code paths.
* `abort()` and failed `assert(...)` inside a printing routine terminate
  the process; a printing routine is therefore embedded as a function into
  `Option String`, with `Option.none` for the fatal outcome.
* The colour helpers (`prepareColor`, `restoreNormalColor`, ...) write
  terminal escape codes only when colour support is enabled; the embedding
  models the plain-text mode, in which they emit nothing (the spec requires
  that mode to exist and to leave the semantic text unchanged).
* `cashew::IString` names are modelled as `String`; the slots the source
  tests with `Name::is()` before use are modelled as `Option String`.
* Float payloads of `Literal` are never computed with in this header; the
  only operation is formatting via `JSPrinter::numToString`, whose source
  is not part of this repository.  A float payload is therefore represented
  by the text that formatter returns for it (see `Literal`).
-/

namespace wasm

/-- The value-type enum `WasmType` (wasm.h lines 84-90). -/
inductive WasmType where
  | none
  | i32
  | i64
  | f32
  | f64
deriving DecidableEq

/-- `printWasmType` (wasm.h lines 92-100): the textual name of a value type. -/
def printWasmType : WasmType → String
  | .none => "none"
  | .i32 => "i32"
  | .i64 => "i64"
  | .f32 => "f32"
  | .f64 => "f64"

/-- `getWasmTypeSize` (wasm.h lines 102-110): byte size of a value type;
`abort()` on `none` is modelled as `Option.none`. -/
def getWasmTypeSize : WasmType → Option Nat
  | .none => Option.none
  | .i32 => some 4
  | .i64 => some 8
  | .f32 => some 4
  | .f64 => some 8

/-- `isFloat` (wasm.h lines 112-118). -/
def isFloat : WasmType → Bool
  | .f32 => true
  | .f64 => true
  | _ => false

/-- `getWasmType` (wasm.h lines 120-125): derive a value type from a byte
width and a float flag; the final `abort()` is modelled as `Option.none`. -/
def getWasmType (size : Nat) (float_ : Bool) : Option WasmType :=
  if size < 4 then some WasmType.i32
  else if size = 4 then some (if float_ then WasmType.f32 else WasmType.i32)
  else if size = 8 then some (if float_ then WasmType.f64 else WasmType.i64)
  else Option.none

/-- The tagged literal `Literal` (wasm.h lines 157-170): a union of one of
four payloads tagged by a `WasmType`; the default constructor leaves the tag
at `none`.  Integer payloads are the mathematical values of the stored
`int32_t`/`int64_t`.  A float payload is represented by the text that
`JSPrinter::numToString` (not part of this repository) returns for it,
since formatting is the only operation this header performs on it. -/
inductive Literal where
  | none
  | i32 (v : Int)
  | i64 (v : Int)
  | f32 (text : String)
  | f64 (text : String)
deriving DecidableEq

/-- The tag of a literal: the `type` field of `Literal`. -/
def Literal.type : Literal → WasmType
  | .none => WasmType.none
  | .i32 _ => WasmType.i32
  | .i64 _ => WasmType.i64
  | .f32 _ => WasmType.f32
  | .f64 _ => WasmType.f64

/-- The state of a default-constructed `Literal` (wasm.h line 166):
tag `none`, payload uninitialised (no payload in the model). -/
def defaultLiteral : Literal := Literal.none

/-- `Literal::printDouble` (wasm.h lines 172-182) after the call to
`JSPrinter::numToString`: `text` is the formatter's output, and the two
rewrites are applied to it exactly as the source does ( a leading `.` is
prefixed with `0`; a leading `-.` becomes `-0` followed by the text after
the `-`). -/
def printDouble (text : String) : String :=
  match text.data with
  | '.' :: _ => "0" ++ text
  | '-' :: '.' :: rest => "-0" ++ String.mk ('.' :: rest)
  | _ => text

/-- The numeric text emitted by the `switch` of `Literal::operator<<`
(wasm.h lines 187-193): plain decimal for the integer payloads, the
normalised formatter output for the float payloads, `abort()` for `none`. -/
def Literal.body : Literal → Option String
  | .none => Option.none
  | .i32 v => some (toString v)
  | .i64 v => some (toString v)
  | .f32 t => some (printDouble t)
  | .f64 t => some (printDouble t)

/-- `Literal::operator<<` (wasm.h lines 184-196): `(<type>.const <body>)`;
the `abort()` reached for tag `none` makes the whole print fatal. -/
def printLiteral (literal : Literal) : Option String :=
  (Literal.body literal).map
    (fun b => "(" ++ printWasmType literal.type ++ ".const " ++ b ++ ")")

-- Operator enumerations (wasm.h lines 201-225)

/-- `UnaryOp` (wasm.h lines 201-204). -/
inductive UnaryOp where
  | Clz | Ctz | Popcnt
  | Neg | Abs | Ceil | Floor | Trunc | Nearest | Sqrt
deriving DecidableEq

/-- `BinaryOp` (wasm.h lines 206-210). -/
inductive BinaryOp where
  | Add | Sub | Mul
  | DivS | DivU | RemS | RemU | And | Or | Xor | Shl | ShrU | ShrS
  | Div | CopySign | Min | Max
deriving DecidableEq

/-- `RelationalOp` (wasm.h lines 212-216). -/
inductive RelationalOp where
  | Eq | Ne
  | LtS | LtU | LeS | LeU | GtS | GtU | GeS | GeU
  | Lt | Le | Gt | Ge
deriving DecidableEq

/-- `ConvertOp` (wasm.h lines 218-221). -/
inductive ConvertOp where
  | ExtendSInt32 | ExtendUInt32 | WrapInt64 | TruncSFloat32 | TruncUFloat32
  | TruncSFloat64 | TruncUFloat64 | ReinterpretFloat
  | ConvertSInt32 | ConvertUInt32 | ConvertSInt64 | ConvertUInt64
  | PromoteFloat32 | DemoteFloat64 | ReinterpretInt
deriving DecidableEq

/-- `HostOp` (wasm.h lines 223-225). -/
inductive HostOp where
  | PageSize | MemorySize | GrowMemory | HasFeature
deriving DecidableEq

/-- The operator-name `switch` of `Unary::print` (wasm.h lines 563-568):
only `Clz`, `Neg` and `Floor` are implemented, the `default` branch
aborts. -/
def unaryOpName : UnaryOp → Option String
  | .Clz => some ("clz")
  | .Neg => some ("neg")
  | .Floor => some ("floor")
  | _ => Option.none

/-- The operator-name `switch` of `Binary::print` (wasm.h lines 583-602):
every enumerator is covered, the `default` branch is unreachable. -/
def binaryOpName : BinaryOp → String
  | .Add => "add"
  | .Sub => "sub"
  | .Mul => "mul"
  | .DivS => "div_s"
  | .DivU => "div_u"
  | .RemS => "rem_s"
  | .RemU => "rem_u"
  | .And => "and"
  | .Or => "or"
  | .Xor => "xor"
  | .Shl => "shl"
  | .ShrU => "shr_u"
  | .ShrS => "shr_s"
  | .Div => "div"
  | .CopySign => "copysign"
  | .Min => "min"
  | .Max => "max"

/-- The operator-name `switch` of `Compare::print` (wasm.h lines 624-640):
every enumerator is covered, the `default` branch is unreachable. -/
def relationalOpName : RelationalOp → String
  | .Eq => "eq"
  | .Ne => "ne"
  | .LtS => "lt_s"
  | .LtU => "lt_u"
  | .LeS => "le_s"
  | .LeU => "le_u"
  | .GtS => "gt_s"
  | .GtU => "gt_u"
  | .GeS => "ge_s"
  | .GeU => "ge_u"
  | .Lt => "lt"
  | .Le => "le"
  | .Gt => "gt"
  | .Ge => "ge"

/-- The mnemonic emitted by `Compare::print` (wasm.h lines 621-640): the
value-type component is taken from the node's `inputType` field, the
operand value-type. -/
def compareMnemonic (inputType : WasmType) (op : RelationalOp) : String :=
  printWasmType inputType ++ "." ++ relationalOpName op

/-- The output type a `Compare` node is constructed with
(wasm.h lines 617-619: `type = WasmType::i32; // output is always i32`). -/
def compareOutputType : WasmType := WasmType.i32

/-- The `switch` of `Convert::print` (wasm.h lines 657-661): only three
conversions are implemented, each with a hard-coded full mnemonic; the
`default` branch aborts. -/
def convertMnemonic : ConvertOp → Option String
  | .ConvertUInt32 => some ("f64.convert_u/i32")
  | .ConvertSInt32 => some ("f64.convert_s/i32")
  | .TruncSFloat64 => some ("i32.trunc_s/f64")
  | _ => Option.none

/-- The mnemonic emitted by `Load::print` (wasm.h lines 488-501):
`<derivedType>.load`, widths 1/2 append `8`/`16` and a `_s`/`_u` sign
suffix; width 3 (or 0) hits the inner `abort()`. -/
def loadMnemonic (bytes : Nat) (signed_ : Bool) (float_ : Bool) : Option String := do
  let t ← getWasmType bytes float_
  if bytes < 4 then do
    let w ← if bytes = 1 then some ("8") else if bytes = 2 then some ("16") else Option.none
    pure (printWasmType t ++ ".load" ++ w ++ (if signed_ then "_s" else "_u"))
  else
    pure (printWasmType t ++ ".load")

/-- The mnemonic emitted by `Store::print` (wasm.h lines 518-529):
as for loads but with no sign suffix. -/
def storeMnemonic (bytes : Nat) (float_ : Bool) : Option String := do
  let t ← getWasmType bytes float_
  if bytes < 4 then do
    let w ← if bytes = 1 then some ("8") else if bytes = 2 then some ("16") else Option.none
    pure (printWasmType t ++ ".store" ++ w)
  else
    pure (printWasmType t ++ ".store")

-- Spec-side definitions, used only to state refinement claims.

/-- Spec-side rendering of the claim's operator-name list for `Compare`
(the names eq, ne, lt_s, lt_u, le_s, le_u, gt_s, gt_u, ge_s, ge_u, lt, le,
gt, ge, in enumerator order), to compare with the source switch. -/
def specCompareOpName : RelationalOp → String
  | .Eq => "eq"
  | .Ne => "ne"
  | .LtS => "lt_s"
  | .LtU => "lt_u"
  | .LeS => "le_s"
  | .LeU => "le_u"
  | .GtS => "gt_s"
  | .GtU => "gt_u"
  | .GeS => "ge_s"
  | .GeU => "ge_u"
  | .Lt => "lt"
  | .Le => "le"
  | .Gt => "gt"
  | .Ge => "ge"

/-- Spec-side `typeFromSizeAndKind(bytes, isFloat)` from section 3 of the
spec: bytes<4 or (bytes==4 and not float) give i32; bytes==4 and float give
f32; bytes==8 gives f64 if float else i64; any other count is undefined. -/
def specTypeFromSizeAndKind (bytes : Nat) (isFloatK : Bool) : Option WasmType :=
  if bytes < 4 ∨ (bytes = 4 ∧ isFloatK = false) then some WasmType.i32
  else if bytes = 4 ∧ isFloatK = true then some WasmType.f32
  else if bytes = 8 then some (if isFloatK then WasmType.f64 else WasmType.i64)
  else Option.none

/-- Spec-side load mnemonic, following the words of the claim: base form
`<derivedType>.load`; widths below 4 bytes append `8` (1 byte) or `16`
(2 bytes); loads additionally append `_s` or `_u` by signedness. -/
def specLoadMnemonic (bytes : Nat) (signed_ : Bool) (float_ : Bool) : Option String := do
  let t ← specTypeFromSizeAndKind bytes float_
  let base := printWasmType t ++ ".load"
  if bytes < 4 then do
    let w ← if bytes = 1 then some ("8") else if bytes = 2 then some ("16") else Option.none
    pure (base ++ w ++ (if signed_ then "_s" else "_u"))
  else
    pure base

/-- Spec-side store mnemonic: as the load form but stores append no sign
suffix. -/
def specStoreMnemonic (bytes : Nat) (float_ : Bool) : Option String := do
  let t ← specTypeFromSizeAndKind bytes float_
  let base := printWasmType t ++ ".store"
  if bytes < 4 then do
    let w ← if bytes = 1 then some ("8") else if bytes = 2 then some ("16") else Option.none
    pure (base ++ w)
  else
    pure base

/-- The fields of `Const` (wasm.h lines 540-553): the inherited output
`type` and the stored literal `value`. -/
structure ConstNode where
  type : WasmType
  value : Literal

/-- `Const::set` (wasm.h lines 544-548): store the literal and copy its tag
into the node's output type. -/
def ConstNode.set (c : ConstNode) (v : Literal) : ConstNode :=
  { c with value := v, type := Literal.type v }

-- The expression node model (wasm.h lines 229-674)

/-- The closed set of expression variants (wasm.h lines 267-674), one
constructor per concrete node class.  Field notes:
* Slots the source tests for null before use (`Block::name` via
  `Name::is()`, the `Loop` labels, `If::ifFalse`, `Break::condition`,
  `Break::value`) are `Option`s; slots the source dereferences or prints
  unconditionally are plain.
* The inherited output `type` field is carried only where this header
  reads or writes it: `Const` (written by `set`), `Unary` and `Binary`
  (read by `print`).  `Compare`'s constructor pins its output type to
  `compareOutputType` and its `print` reads `inputType` instead.
* `Switch::Case` (value, body, fallthru) is a triple; `CallIndirect`
  stores the name of its `FunctionType`, the only part `print` uses.
* `Label` and `Host` do not override the pure-virtual `print`. -/
inductive Expression where
  | Nop
  | Block (name : Option String) (list : List Expression)
  | If (condition : Expression) (ifTrue : Expression) (ifFalse : Option Expression)
  | Loop (out : Option String) (in_ : Option String) (body : Expression)
  | Label (name : String)
  | Break (name : String) (condition : Option Expression) (value : Option Expression)
  | Switch (name : String) (value : Expression)
      (cases : List (Literal × Expression × Bool)) (default_ : Expression)
  | Call (target : String) (operands : List Expression)
  | CallImport (target : String) (operands : List Expression)
  | CallIndirect (typeName : String) (target : Expression) (operands : List Expression)
  | GetLocal (id : String)
  | SetLocal (id : String) (value : Expression)
  | Load (bytes : Nat) (signed_ : Bool) (float_ : Bool) (offset : Int)
      (align : Nat) (ptr : Expression)
  | Store (bytes : Nat) (float_ : Bool) (offset : Int) (align : Nat)
      (ptr : Expression) (value : Expression)
  | Const (type : WasmType) (value : Literal)
  | Unary (type : WasmType) (op : UnaryOp) (value : Expression)
  | Binary (type : WasmType) (op : BinaryOp) (left : Expression) (right : Expression)
  | Compare (inputType : WasmType) (op : RelationalOp) (left : Expression) (right : Expression)
  | Convert (op : ConvertOp) (value : Expression)
  | Host (op : HostOp) (operands : List Expression)

/-- `Name::operator<<` (wasm.h lines 76-79): every printed name carries the
mandatory `$` sigil. -/
def printName (name : String) : String := "$" ++ name

/-- `doIndent` (wasm.h lines 52-57): two spaces per indent level. -/
def doIndent : Nat → String
  | 0 => ""
  | n + 1 => "  " ++ doIndent n

-- The canonical printer.  `incIndent`/`decIndent` mutate the caller's
-- indent counter by reference in the source; here each compound print form
-- passes `indent + 1` to its child lines and closes at `doIndent indent`,
-- the same arithmetic.  A routine that can reach `abort()` or a failing
-- `assert` returns `Option.none` in that case.

mutual

/-- `Expression::print` dispatched over the variants (the per-class
`print` overrides of wasm.h).  `Label` and `Host` have no override of the
pure-virtual `print` and so cannot be printed. -/
def print : Expression → Nat → Option String
  | .Nop, _ => some ("(nop)")
  | .Block name list, indent => do
      let body ← printLines (indent + 1) list
      pure ("(block"
        ++ (match name with
            | some n => " " ++ printName n
            | Option.none => "")
        ++ "\n" ++ body ++ doIndent indent ++ ")")
  | .If condition ifTrue ifFalse, indent => do
      let c ← printFullLine (indent + 1) condition
      let t ← printFullLine (indent + 1) ifTrue
      let f ← printOptLine (indent + 1) ifFalse
      pure ("(if" ++ "\n" ++ c ++ t ++ f ++ doIndent indent ++ ")")
  | .Loop out in_ body, indent => do
      let b ← printFullLine (indent + 1) body
      pure ("(loop"
        ++ (match out with
            | some o =>
                " " ++ printName o
                  ++ (match in_ with
                      | some i => " " ++ printName i
                      | Option.none => "")
            | Option.none => "")
        ++ "\n" ++ b ++ doIndent indent ++ ")")
  | .Label _, _ => Option.none
  | .Break name condition value, indent => do
      let c ← printOptLine (indent + 1) condition
      let v ← printOptLine (indent + 1) value
      pure ("(break " ++ printName name ++ "\n" ++ c ++ v ++ doIndent indent ++ ")")
  | .Switch name value _ _, indent => do
      let v ← printFullLine (indent + 1) value
      pure ("(switch " ++ printName name ++ "\n" ++ v
        ++ "TODO: cases/default\n" ++ doIndent indent ++ ")")
  | .Call target operands, indent =>
      printCallBody ("(call ") target operands indent
  | .CallImport target operands, indent =>
      printCallBody ("(call_import ") target operands indent
  | .CallIndirect typeName target operands, indent => do
      let t ← printFullLine (indent + 1) target
      let ops ← printLines (indent + 1) operands
      pure ("(call_indirect " ++ printName typeName ++ "\n" ++ t ++ ops
        ++ doIndent indent ++ ")")
  | .GetLocal id, _ => some ("(get_local " ++ printName id ++ ")")
  | .SetLocal id value, indent => do
      let v ← printFullLine (indent + 1) value
      pure ("(set_local " ++ printName id ++ "\n" ++ v ++ doIndent indent ++ ")")
  | .Load bytes signed_ float_ offset align ptr, indent => do
      let m ← loadMnemonic bytes signed_ float_
      if offset = 0 then do
        let p ← printFullLine (indent + 1) ptr
        pure ("(" ++ m ++ " align=" ++ toString align ++ "\n" ++ p
          ++ doIndent indent ++ ")")
      else Option.none
  | .Store bytes float_ offset align ptr value, indent => do
      let m ← storeMnemonic bytes float_
      if offset = 0 then do
        let p ← printFullLine (indent + 1) ptr
        let v ← printFullLine (indent + 1) value
        pure ("(" ++ m ++ " align=" ++ toString align ++ "\n" ++ p ++ v
          ++ doIndent indent ++ ")")
      else Option.none
  | .Const _ value, _ => printLiteral value
  | .Unary type op value, indent => do
      let n ← unaryOpName op
      let v ← printFullLine (indent + 1) value
      pure ("(" ++ printWasmType type ++ "." ++ n ++ "\n" ++ v
        ++ doIndent indent ++ ")")
  | .Binary type op left right, indent => do
      let l ← printFullLine (indent + 1) left
      let r ← printFullLine (indent + 1) right
      pure ("(" ++ printWasmType type ++ "." ++ binaryOpName op ++ "\n"
        ++ l ++ r ++ doIndent indent ++ ")")
  | .Compare inputType op left right, indent => do
      let l ← printFullLine (indent + 1) left
      let r ← printFullLine (indent + 1) right
      pure ("(" ++ compareMnemonic inputType op ++ "\n" ++ l ++ r
        ++ doIndent indent ++ ")")
  | .Convert op value, indent => do
      let m ← convertMnemonic op
      let v ← printFullLine (indent + 1) value
      pure ("(" ++ m ++ "\n" ++ v ++ doIndent indent ++ ")")
  | .Host _ _, _ => Option.none
termination_by e _ => (sizeOf e, 0)

/-- `printFullLine` (wasm.h lines 243-247): indent, print, newline. -/
def printFullLine (indent : Nat) (e : Expression) : Option String := do
  let s ← print e indent
  pure (doIndent indent ++ s ++ "\n")
termination_by (sizeOf e, 1)

/-- An optional child line: the source guards these with
`if (child) printFullLine(o, indent, child);`, emitting nothing when the
child is absent. -/
def printOptLine (indent : Nat) : Option Expression → Option String
  | Option.none => some ("")
  | some e => printFullLine indent e
termination_by o => (sizeOf o, 2)

/-- A run of `printFullLine` calls over a child list, in order. -/
def printLines (indent : Nat) : List Expression → Option String
  | [] => some ("")
  | x :: xs => do
      let a ← printFullLine indent x
      let b ← printLines indent xs
      pure (a ++ b)
termination_by l => (sizeOf l, 0)

/-- `Call::printBody` (wasm.h lines 371-383), with the opening token of
`Call::print`/`CallImport::print` prepended: no operands close on the same
line, otherwise one operand per line. -/
def printCallBody (opening : String) (target : String)
    (operands : List Expression) (indent : Nat) : Option String :=
  if operands.isEmpty then some (opening ++ printName target ++ ")")
  else do
    let body ← printLines (indent + 1) operands
    pure (opening ++ printName target ++ "\n" ++ body ++ doIndent indent ++ ")")
termination_by (sizeOf operands, 1)

end

-- The walker/rewriter (wasm.h lines 806-946)

/-- The rewrite-hook table of `WasmWalker` (wasm.h lines 812-832): one
virtual method per node kind, each receiving the (children-already-walked)
node and returning its replacement.  The hook object's mutable state is
made explicit as a value of type `σ` threaded through every hook; the
`allocator` member is never consulted by `walk` and is omitted. -/
structure WasmWalker (σ : Type) where
  walkBlock : Expression → σ → Expression × σ
  walkIf : Expression → σ → Expression × σ
  walkLoop : Expression → σ → Expression × σ
  walkLabel : Expression → σ → Expression × σ
  walkBreak : Expression → σ → Expression × σ
  walkSwitch : Expression → σ → Expression × σ
  walkCall : Expression → σ → Expression × σ
  walkCallImport : Expression → σ → Expression × σ
  walkCallIndirect : Expression → σ → Expression × σ
  walkGetLocal : Expression → σ → Expression × σ
  walkSetLocal : Expression → σ → Expression × σ
  walkLoad : Expression → σ → Expression × σ
  walkStore : Expression → σ → Expression × σ
  walkConst : Expression → σ → Expression × σ
  walkUnary : Expression → σ → Expression × σ
  walkBinary : Expression → σ → Expression × σ
  walkCompare : Expression → σ → Expression × σ
  walkConvert : Expression → σ → Expression × σ
  walkHost : Expression → σ → Expression × σ
  walkNop : Expression → σ → Expression × σ

/-- The default hooks (wasm.h lines 813-832): every one returns `curr`
unchanged. -/
def defaultWalker (σ : Type) : WasmWalker σ :=
  { walkBlock := fun curr s => (curr, s)
    walkIf := fun curr s => (curr, s)
    walkLoop := fun curr s => (curr, s)
    walkLabel := fun curr s => (curr, s)
    walkBreak := fun curr s => (curr, s)
    walkSwitch := fun curr s => (curr, s)
    walkCall := fun curr s => (curr, s)
    walkCallImport := fun curr s => (curr, s)
    walkCallIndirect := fun curr s => (curr, s)
    walkGetLocal := fun curr s => (curr, s)
    walkSetLocal := fun curr s => (curr, s)
    walkLoad := fun curr s => (curr, s)
    walkStore := fun curr s => (curr, s)
    walkConst := fun curr s => (curr, s)
    walkUnary := fun curr s => (curr, s)
    walkBinary := fun curr s => (curr, s)
    walkCompare := fun curr s => (curr, s)
    walkConvert := fun curr s => (curr, s)
    walkHost := fun curr s => (curr, s)
    walkNop := fun curr s => (curr, s) }

mutual

/-- `WasmWalker::walk` (wasm.h lines 835-941): children first, then the
hook selected by the `dynamic_cast` chain, the node's children replaced by
their walked results before the hook sees the node.

The chain tests `Call` (line 871) before `CallImport` (line 878); since
`CallImport` publicly derives from `Call`, a `CallImport` node already
matches the `Call` test, so it is handed to `walkCall` and the dedicated
`CallImport` branch — and with it the `walkCallImport` hook — is
unreachable.  The `CallImport` case below embeds the branch that actually
runs for such a node. -/
def walk {σ : Type} (w : WasmWalker σ) : Expression → σ → Expression × σ
  | .Nop, s => w.walkNop .Nop s
  | .Block name list, s =>
      let r := walkList w list s
      w.walkBlock (.Block name r.1) r.2
  | .If condition ifTrue ifFalse, s =>
      let c := walk w condition s
      let t := walk w ifTrue c.2
      let f := walkOpt w ifFalse t.2
      w.walkIf (.If c.1 t.1 f.1) f.2
  | .Loop out in_ body, s =>
      let b := walk w body s
      w.walkLoop (.Loop out in_ b.1) b.2
  | .Label name, s => w.walkLabel (.Label name) s
  | .Break name condition value, s =>
      let c := walkOpt w condition s
      let v := walkOpt w value c.2
      w.walkBreak (.Break name c.1 v.1) v.2
  | .Switch name value cases default_, s =>
      let v := walk w value s
      let cs := walkCases w cases v.2
      let d := walk w default_ cs.2
      w.walkSwitch (.Switch name v.1 cs.1 d.1) d.2
  | .Call target operands, s =>
      let ops := walkList w operands s
      w.walkCall (.Call target ops.1) ops.2
  | .CallImport target operands, s =>
      let ops := walkList w operands s
      w.walkCall (.CallImport target ops.1) ops.2
  | .CallIndirect typeName target operands, s =>
      let t := walk w target s
      let ops := walkList w operands t.2
      w.walkCallIndirect (.CallIndirect typeName t.1 ops.1) ops.2
  | .GetLocal id, s => w.walkGetLocal (.GetLocal id) s
  | .SetLocal id value, s =>
      let v := walk w value s
      w.walkSetLocal (.SetLocal id v.1) v.2
  | .Load bytes signed_ float_ offset align ptr, s =>
      let p := walk w ptr s
      w.walkLoad (.Load bytes signed_ float_ offset align p.1) p.2
  | .Store bytes float_ offset align ptr value, s =>
      let p := walk w ptr s
      let v := walk w value p.2
      w.walkStore (.Store bytes float_ offset align p.1 v.1) v.2
  | .Const type value, s => w.walkConst (.Const type value) s
  | .Unary type op value, s =>
      let v := walk w value s
      w.walkUnary (.Unary type op v.1) v.2
  | .Binary type op left right, s =>
      let l := walk w left s
      let r := walk w right l.2
      w.walkBinary (.Binary type op l.1 r.1) r.2
  | .Compare inputType op left right, s =>
      let l := walk w left s
      let r := walk w right l.2
      w.walkCompare (.Compare inputType op l.1 r.1) r.2
  | .Convert op value, s =>
      let v := walk w value s
      w.walkConvert (.Convert op v.1) v.2
  | .Host op operands, s =>
      let ops := walkList w operands s
      w.walkHost (.Host op ops.1) ops.2
termination_by e _ => sizeOf e

/-- The null guard at the top of `walk` (wasm.h line 836,
`if (!curr) return curr;`): an absent child is returned unchanged with no
hook invoked and no state change. -/
def walkOpt {σ : Type} (w : WasmWalker σ) : Option Expression → σ → Option Expression × σ
  | Option.none, s => (Option.none, s)
  | some e, s =>
      let r := walk w e s
      (some r.1, r.2)
termination_by o _ => sizeOf o

/-- The in-place rewrite loop `list[z] = walk(list[z])` over an
`ExpressionList`, in order. -/
def walkList {σ : Type} (w : WasmWalker σ) : List Expression → σ → List Expression × σ
  | [], s => ([], s)
  | x :: xs, s =>
      let x2 := walk w x s
      let xs2 := walkList w xs x2.2
      (x2.1 :: xs2.1, xs2.2)
termination_by l _ => sizeOf l

/-- The loop over `Switch::cases` (wasm.h lines 865-867): each case body is
walked in declaration order; value and fallthrough flag are untouched. -/
def walkCases {σ : Type} (w : WasmWalker σ) :
    List (Literal × Expression × Bool) → σ → List (Literal × Expression × Bool) × σ
  | [], s => ([], s)
  | (value, body, fallthru) :: rest, s =>
      let b := walk w body s
      let r := walkCases w rest b.2
      ((value, b.1, fallthru) :: r.1, r.2)
termination_by l _ => sizeOf l

end

-- Instrumentation: a walker whose hooks record which hook ran.

/-- One tag per rewrite hook of `WasmWalker`, used to record hook
invocations. -/
inductive HookKind where
  | Block | If | Loop | Label | Break | Switch | Call | CallImport
  | CallIndirect | GetLocal | SetLocal | Load | Store | Const | Unary
  | Binary | Compare | Convert | Host | Nop
deriving DecidableEq

/-- An instrumented hook set: every hook is the identity on the node and
appends its own tag to the state, so the final state is the exact sequence
of hook invocations. -/
def recorder : WasmWalker (List HookKind) :=
  { walkBlock := fun curr s => (curr, s ++ [HookKind.Block])
    walkIf := fun curr s => (curr, s ++ [HookKind.If])
    walkLoop := fun curr s => (curr, s ++ [HookKind.Loop])
    walkLabel := fun curr s => (curr, s ++ [HookKind.Label])
    walkBreak := fun curr s => (curr, s ++ [HookKind.Break])
    walkSwitch := fun curr s => (curr, s ++ [HookKind.Switch])
    walkCall := fun curr s => (curr, s ++ [HookKind.Call])
    walkCallImport := fun curr s => (curr, s ++ [HookKind.CallImport])
    walkCallIndirect := fun curr s => (curr, s ++ [HookKind.CallIndirect])
    walkGetLocal := fun curr s => (curr, s ++ [HookKind.GetLocal])
    walkSetLocal := fun curr s => (curr, s ++ [HookKind.SetLocal])
    walkLoad := fun curr s => (curr, s ++ [HookKind.Load])
    walkStore := fun curr s => (curr, s ++ [HookKind.Store])
    walkConst := fun curr s => (curr, s ++ [HookKind.Const])
    walkUnary := fun curr s => (curr, s ++ [HookKind.Unary])
    walkBinary := fun curr s => (curr, s ++ [HookKind.Binary])
    walkCompare := fun curr s => (curr, s ++ [HookKind.Compare])
    walkConvert := fun curr s => (curr, s ++ [HookKind.Convert])
    walkHost := fun curr s => (curr, s ++ [HookKind.Host])
    walkNop := fun curr s => (curr, s ++ [HookKind.Nop]) }

-- Supplementary: the full hook-invocation order of the source walker.

mutual

/-- The hook sequence `walk` produces for a tree: for every node, the
traces of its children in the source's visit order, then the hook the
`dynamic_cast` chain selects for the node (`Call` for both `Call` and
`CallImport` nodes, because the `Call` test comes first and matches
both). -/
def codeTrace : Expression → List HookKind
  | .Nop => [HookKind.Nop]
  | .Block _ list => codeTraceList list ++ [HookKind.Block]
  | .If condition ifTrue ifFalse =>
      codeTrace condition ++ codeTrace ifTrue ++ codeTraceOpt ifFalse ++ [HookKind.If]
  | .Loop _ _ body => codeTrace body ++ [HookKind.Loop]
  | .Label _ => [HookKind.Label]
  | .Break _ condition value =>
      codeTraceOpt condition ++ codeTraceOpt value ++ [HookKind.Break]
  | .Switch _ value cases default_ =>
      codeTrace value ++ codeTraceCases cases ++ codeTrace default_ ++ [HookKind.Switch]
  | .Call _ operands => codeTraceList operands ++ [HookKind.Call]
  | .CallImport _ operands => codeTraceList operands ++ [HookKind.Call]
  | .CallIndirect _ target operands =>
      codeTrace target ++ codeTraceList operands ++ [HookKind.CallIndirect]
  | .GetLocal _ => [HookKind.GetLocal]
  | .SetLocal _ value => codeTrace value ++ [HookKind.SetLocal]
  | .Load _ _ _ _ _ ptr => codeTrace ptr ++ [HookKind.Load]
  | .Store _ _ _ _ ptr value => codeTrace ptr ++ codeTrace value ++ [HookKind.Store]
  | .Const _ _ => [HookKind.Const]
  | .Unary _ _ value => codeTrace value ++ [HookKind.Unary]
  | .Binary _ _ left right => codeTrace left ++ codeTrace right ++ [HookKind.Binary]
  | .Compare _ _ left right => codeTrace left ++ codeTrace right ++ [HookKind.Compare]
  | .Convert _ value => codeTrace value ++ [HookKind.Convert]
  | .Host _ operands => codeTraceList operands ++ [HookKind.Host]
termination_by e => sizeOf e

/-- Absent optional children contribute nothing to the trace. -/
def codeTraceOpt : Option Expression → List HookKind
  | Option.none => []
  | some e => codeTrace e
termination_by o => sizeOf o

def codeTraceList : List Expression → List HookKind
  | [] => []
  | x :: xs => codeTrace x ++ codeTraceList xs
termination_by l => sizeOf l

def codeTraceCases : List (Literal × Expression × Bool) → List HookKind
  | [] => []
  | (_, body, _) :: rest => codeTrace body ++ codeTraceCases rest
termination_by l => sizeOf l

end

mutual

/-- Spec-side hook order, read off the claim and the table in section 3 of
the spec: every child of a node is walked before the node's own per-kind
hook is invoked, children in the table's order, and a `CallImport` node
gets the `CallImport` hook. -/
def specTrace : Expression → List HookKind
  | .Nop => [HookKind.Nop]
  | .Block _ list => specTraceList list ++ [HookKind.Block]
  | .If condition ifTrue ifFalse =>
      specTrace condition ++ specTrace ifTrue ++ specTraceOpt ifFalse ++ [HookKind.If]
  | .Loop _ _ body => specTrace body ++ [HookKind.Loop]
  | .Label _ => [HookKind.Label]
  | .Break _ condition value =>
      specTraceOpt condition ++ specTraceOpt value ++ [HookKind.Break]
  | .Switch _ value cases default_ =>
      specTrace value ++ specTraceCases cases ++ specTrace default_ ++ [HookKind.Switch]
  | .Call _ operands => specTraceList operands ++ [HookKind.Call]
  | .CallImport _ operands => specTraceList operands ++ [HookKind.CallImport]
  | .CallIndirect _ target operands =>
      specTrace target ++ specTraceList operands ++ [HookKind.CallIndirect]
  | .GetLocal _ => [HookKind.GetLocal]
  | .SetLocal _ value => specTrace value ++ [HookKind.SetLocal]
  | .Load _ _ _ _ _ ptr => specTrace ptr ++ [HookKind.Load]
  | .Store _ _ _ _ ptr value => specTrace ptr ++ specTrace value ++ [HookKind.Store]
  | .Const _ _ => [HookKind.Const]
  | .Unary _ _ value => specTrace value ++ [HookKind.Unary]
  | .Binary _ _ left right => specTrace left ++ specTrace right ++ [HookKind.Binary]
  | .Compare _ _ left right => specTrace left ++ specTrace right ++ [HookKind.Compare]
  | .Convert _ value => specTrace value ++ [HookKind.Convert]
  | .Host _ operands => specTraceList operands ++ [HookKind.Host]
termination_by e => sizeOf e

def specTraceOpt : Option Expression → List HookKind
  | Option.none => []
  | some e => specTrace e
termination_by o => sizeOf o

def specTraceList : List Expression → List HookKind
  | [] => []
  | x :: xs => specTrace x ++ specTraceList xs
termination_by l => sizeOf l

def specTraceCases : List (Literal × Expression × Bool) → List HookKind
  | [] => []
  | (_, body, _) :: rest => specTrace body ++ specTraceCases rest
termination_by l => sizeOf l

end

mutual

/-- Does the tree contain a `CallImport` node? -/
def hasCallImport : Expression → Bool
  | .Nop => false
  | .Block _ list => hasCallImportList list
  | .If condition ifTrue ifFalse =>
      hasCallImport condition || hasCallImport ifTrue || hasCallImportOpt ifFalse
  | .Loop _ _ body => hasCallImport body
  | .Label _ => false
  | .Break _ condition value =>
      hasCallImportOpt condition || hasCallImportOpt value
  | .Switch _ value cases default_ =>
      hasCallImport value || hasCallImportCases cases || hasCallImport default_
  | .Call _ operands => hasCallImportList operands
  | .CallImport _ _ => true
  | .CallIndirect _ target operands =>
      hasCallImport target || hasCallImportList operands
  | .GetLocal _ => false
  | .SetLocal _ value => hasCallImport value
  | .Load _ _ _ _ _ ptr => hasCallImport ptr
  | .Store _ _ _ _ ptr value => hasCallImport ptr || hasCallImport value
  | .Const _ _ => false
  | .Unary _ _ value => hasCallImport value
  | .Binary _ _ left right => hasCallImport left || hasCallImport right
  | .Compare _ _ left right => hasCallImport left || hasCallImport right
  | .Convert _ value => hasCallImport value
  | .Host _ operands => hasCallImportList operands
termination_by e => sizeOf e

def hasCallImportOpt : Option Expression → Bool
  | Option.none => false
  | some e => hasCallImport e
termination_by o => sizeOf o

def hasCallImportList : List Expression → Bool
  | [] => false
  | x :: xs => hasCallImport x || hasCallImportList xs
termination_by l => sizeOf l

def hasCallImportCases : List (Literal × Expression × Bool) → Bool
  | [] => false
  | (_, body, _) :: rest => hasCallImport body || hasCallImportCases rest
termination_by l => sizeOf l

end

-- Helper lemmas: the default (all-identity) hook set leaves every node,
-- child list and optional child unchanged and does not touch the state.

mutual

theorem walk_default_eq {σ : Type} : ∀ (e : Expression) (s : σ),
    walk (defaultWalker σ) e s = (e, s)
  | .Nop, s => by simp [walk, defaultWalker]
  | .Block name list, s => by
      simp [walk, walkList_default_eq list s]
      simp [defaultWalker]
  | .If condition ifTrue ifFalse, s => by
      simp [walk, walk_default_eq condition s, walk_default_eq ifTrue s,
        walkOpt_default_eq ifFalse s]
      simp [defaultWalker]
  | .Loop out in_ body, s => by
      simp [walk, walk_default_eq body s]
      simp [defaultWalker]
  | .Label name, s => by simp [walk, defaultWalker]
  | .Break name condition value, s => by
      simp [walk, walkOpt_default_eq condition s, walkOpt_default_eq value s]
      simp [defaultWalker]
  | .Switch name value cases default_, s => by
      simp [walk, walk_default_eq value s, walkCases_default_eq cases s,
        walk_default_eq default_ s]
      simp [defaultWalker]
  | .Call target operands, s => by
      simp [walk, walkList_default_eq operands s]
      simp [defaultWalker]
  | .CallImport target operands, s => by
      simp [walk, walkList_default_eq operands s]
      simp [defaultWalker]
  | .CallIndirect typeName target operands, s => by
      simp [walk, walk_default_eq target s, walkList_default_eq operands s]
      simp [defaultWalker]
  | .GetLocal id, s => by simp [walk, defaultWalker]
  | .SetLocal id value, s => by
      simp [walk, walk_default_eq value s]
      simp [defaultWalker]
  | .Load bytes signed_ float_ offset align ptr, s => by
      simp [walk, walk_default_eq ptr s]
      simp [defaultWalker]
  | .Store bytes float_ offset align ptr value, s => by
      simp [walk, walk_default_eq ptr s, walk_default_eq value s]
      simp [defaultWalker]
  | .Const type value, s => by simp [walk, defaultWalker]
  | .Unary type op value, s => by
      simp [walk, walk_default_eq value s]
      simp [defaultWalker]
  | .Binary type op left right, s => by
      simp [walk, walk_default_eq left s, walk_default_eq right s]
      simp [defaultWalker]
  | .Compare inputType op left right, s => by
      simp [walk, walk_default_eq left s, walk_default_eq right s]
      simp [defaultWalker]
  | .Convert op value, s => by
      simp [walk, walk_default_eq value s]
      simp [defaultWalker]
  | .Host op operands, s => by
      simp [walk, walkList_default_eq operands s]
      simp [defaultWalker]
termination_by e _ => sizeOf e

theorem walkOpt_default_eq {σ : Type} : ∀ (o : Option Expression) (s : σ),
    walkOpt (defaultWalker σ) o s = (o, s)
  | Option.none, s => by simp [walkOpt]
  | some e, s => by simp [walkOpt, walk_default_eq e s]
termination_by o _ => sizeOf o

theorem walkList_default_eq {σ : Type} : ∀ (l : List Expression) (s : σ),
    walkList (defaultWalker σ) l s = (l, s)
  | [], s => by simp [walkList]
  | x :: xs, s => by
      simp [walkList, walk_default_eq x s, walkList_default_eq xs s]
termination_by l _ => sizeOf l

theorem walkCases_default_eq {σ : Type} : ∀ (l : List (Literal × Expression × Bool)) (s : σ),
    walkCases (defaultWalker σ) l s = (l, s)
  | [], s => by simp [walkCases]
  | (value, body, fallthru) :: rest, s => by
      simp [walkCases, walk_default_eq body s, walkCases_default_eq rest s]
termination_by l _ => sizeOf l

end


mutual

/-- Walking with the recording hooks leaves the tree unchanged and appends
exactly `codeTrace e` to the state: the hooks run children-first, in the
source's per-variant child order. -/
theorem walk_recorder_trace : ∀ (e : Expression), ∀ (s : List HookKind),
    walk recorder e s = (e, s ++ codeTrace e)
  | .Nop => by
      intro s
      simp [walk, codeTrace]
      simp [recorder]
  | .Block name list => by
      intro s
      simp [walk, walkList_recorder_trace list, codeTrace]
      simp [recorder]
  | .If condition ifTrue ifFalse => by
      intro s
      simp [walk, walk_recorder_trace condition, walk_recorder_trace ifTrue,
        walkOpt_recorder_trace ifFalse, codeTrace]
      simp [recorder]
  | .Loop out in_ body => by
      intro s
      simp [walk, walk_recorder_trace body, codeTrace]
      simp [recorder]
  | .Label name => by
      intro s
      simp [walk, codeTrace]
      simp [recorder]
  | .Break name condition value => by
      intro s
      simp [walk, walkOpt_recorder_trace condition, walkOpt_recorder_trace value,
        codeTrace]
      simp [recorder]
  | .Switch name value cases default_ => by
      intro s
      simp [walk, walk_recorder_trace value, walkCases_recorder_trace cases,
        walk_recorder_trace default_, codeTrace]
      simp [recorder]
  | .Call target operands => by
      intro s
      simp [walk, walkList_recorder_trace operands, codeTrace]
      simp [recorder]
  | .CallImport target operands => by
      intro s
      simp [walk, walkList_recorder_trace operands, codeTrace]
      simp [recorder]
  | .CallIndirect typeName target operands => by
      intro s
      simp [walk, walk_recorder_trace target, walkList_recorder_trace operands,
        codeTrace]
      simp [recorder]
  | .GetLocal id => by
      intro s
      simp [walk, codeTrace]
      simp [recorder]
  | .SetLocal id value => by
      intro s
      simp [walk, walk_recorder_trace value, codeTrace]
      simp [recorder]
  | .Load bytes signed_ float_ offset align ptr => by
      intro s
      simp [walk, walk_recorder_trace ptr, codeTrace]
      simp [recorder]
  | .Store bytes float_ offset align ptr value => by
      intro s
      simp [walk, walk_recorder_trace ptr, walk_recorder_trace value, codeTrace]
      simp [recorder]
  | .Const type value => by
      intro s
      simp [walk, codeTrace]
      simp [recorder]
  | .Unary type op value => by
      intro s
      simp [walk, walk_recorder_trace value, codeTrace]
      simp [recorder]
  | .Binary type op left right => by
      intro s
      simp [walk, walk_recorder_trace left, walk_recorder_trace right, codeTrace]
      simp [recorder]
  | .Compare inputType op left right => by
      intro s
      simp [walk, walk_recorder_trace left, walk_recorder_trace right, codeTrace]
      simp [recorder]
  | .Convert op value => by
      intro s
      simp [walk, walk_recorder_trace value, codeTrace]
      simp [recorder]
  | .Host op operands => by
      intro s
      simp [walk, walkList_recorder_trace operands, codeTrace]
      simp [recorder]
termination_by e => sizeOf e

theorem walkOpt_recorder_trace : ∀ (o : Option Expression), ∀ (s : List HookKind),
    walkOpt recorder o s = (o, s ++ codeTraceOpt o)
  | Option.none => by
      intro s
      simp [walkOpt, codeTraceOpt]
  | some e => by
      intro s
      simp [walkOpt, walk_recorder_trace e, codeTraceOpt]
termination_by o => sizeOf o

theorem walkList_recorder_trace : ∀ (l : List Expression), ∀ (s : List HookKind),
    walkList recorder l s = (l, s ++ codeTraceList l)
  | [] => by
      intro s
      simp [walkList, codeTraceList]
  | x :: xs => by
      intro s
      simp [walkList, walk_recorder_trace x, walkList_recorder_trace xs, codeTraceList]
termination_by l => sizeOf l

theorem walkCases_recorder_trace : ∀ (l : List (Literal × Expression × Bool)),
    ∀ (s : List HookKind), walkCases recorder l s = (l, s ++ codeTraceCases l)
  | [] => by
      intro s
      simp [walkCases, codeTraceCases]
  | (value, body, fallthru) :: rest => by
      intro s
      simp [walkCases, walk_recorder_trace body, walkCases_recorder_trace rest,
        codeTraceCases]
termination_by l => sizeOf l

end


mutual

/-- On every tree that contains no `CallImport` node, the hook order the
source walker produces is exactly the spec's post-order with the table's
child order: the divergence of `walk` from the claimed order is confined
to `CallImport` dispatch. -/
theorem codeTrace_eq_specTrace : ∀ (e : Expression),
    hasCallImport e = false → codeTrace e = specTrace e
  | .Nop => by
      intro h
      simp [codeTrace, specTrace]
  | .Block name list => by
      intro h
      simp [hasCallImport] at h
      simp [codeTrace, specTrace, codeTraceList_eq list h]
  | .If condition ifTrue ifFalse => by
      intro h
      simp [hasCallImport] at h
      simp [codeTrace, specTrace, codeTrace_eq_specTrace condition h.1.1,
        codeTrace_eq_specTrace ifTrue h.1.2, codeTraceOpt_eq ifFalse h.2]
  | .Loop out in_ body => by
      intro h
      simp [hasCallImport] at h
      simp [codeTrace, specTrace, codeTrace_eq_specTrace body h]
  | .Label name => by
      intro h
      simp [codeTrace, specTrace]
  | .Break name condition value => by
      intro h
      simp [hasCallImport] at h
      simp [codeTrace, specTrace, codeTraceOpt_eq condition h.1,
        codeTraceOpt_eq value h.2]
  | .Switch name value cases default_ => by
      intro h
      simp [hasCallImport] at h
      simp [codeTrace, specTrace, codeTrace_eq_specTrace value h.1.1,
        codeTraceCases_eq cases h.1.2, codeTrace_eq_specTrace default_ h.2]
  | .Call target operands => by
      intro h
      simp [hasCallImport] at h
      simp [codeTrace, specTrace, codeTraceList_eq operands h]
  | .CallImport target operands => by
      intro h
      simp [hasCallImport] at h
  | .CallIndirect typeName target operands => by
      intro h
      simp [hasCallImport] at h
      simp [codeTrace, specTrace, codeTrace_eq_specTrace target h.1,
        codeTraceList_eq operands h.2]
  | .GetLocal id => by
      intro h
      simp [codeTrace, specTrace]
  | .SetLocal id value => by
      intro h
      simp [hasCallImport] at h
      simp [codeTrace, specTrace, codeTrace_eq_specTrace value h]
  | .Load bytes signed_ float_ offset align ptr => by
      intro h
      simp [hasCallImport] at h
      simp [codeTrace, specTrace, codeTrace_eq_specTrace ptr h]
  | .Store bytes float_ offset align ptr value => by
      intro h
      simp [hasCallImport] at h
      simp [codeTrace, specTrace, codeTrace_eq_specTrace ptr h.1,
        codeTrace_eq_specTrace value h.2]
  | .Const type value => by
      intro h
      simp [codeTrace, specTrace]
  | .Unary type op value => by
      intro h
      simp [hasCallImport] at h
      simp [codeTrace, specTrace, codeTrace_eq_specTrace value h]
  | .Binary type op left right => by
      intro h
      simp [hasCallImport] at h
      simp [codeTrace, specTrace, codeTrace_eq_specTrace left h.1,
        codeTrace_eq_specTrace right h.2]
  | .Compare inputType op left right => by
      intro h
      simp [hasCallImport] at h
      simp [codeTrace, specTrace, codeTrace_eq_specTrace left h.1,
        codeTrace_eq_specTrace right h.2]
  | .Convert op value => by
      intro h
      simp [hasCallImport] at h
      simp [codeTrace, specTrace, codeTrace_eq_specTrace value h]
  | .Host op operands => by
      intro h
      simp [hasCallImport] at h
      simp [codeTrace, specTrace, codeTraceList_eq operands h]
termination_by e => sizeOf e

theorem codeTraceOpt_eq : ∀ (o : Option Expression),
    hasCallImportOpt o = false → codeTraceOpt o = specTraceOpt o
  | Option.none => by
      intro h
      simp [codeTraceOpt, specTraceOpt]
  | some e => by
      intro h
      simp [hasCallImportOpt] at h
      simp [codeTraceOpt, specTraceOpt, codeTrace_eq_specTrace e h]
termination_by o => sizeOf o

theorem codeTraceList_eq : ∀ (l : List Expression),
    hasCallImportList l = false → codeTraceList l = specTraceList l
  | [] => by
      intro h
      simp [codeTraceList, specTraceList]
  | x :: xs => by
      intro h
      simp [hasCallImportList] at h
      simp [codeTraceList, specTraceList, codeTrace_eq_specTrace x h.1,
        codeTraceList_eq xs h.2]
termination_by l => sizeOf l

theorem codeTraceCases_eq : ∀ (l : List (Literal × Expression × Bool)),
    hasCallImportCases l = false → codeTraceCases l = specTraceCases l
  | [] => by
      intro h
      simp [codeTraceCases, specTraceCases]
  | (value, body, fallthru) :: rest => by
      intro h
      simp [hasCallImportCases] at h
      simp [codeTraceCases, specTraceCases, codeTrace_eq_specTrace body h.1,
        codeTraceCases_eq rest h.2]
termination_by l => sizeOf l

end

/-- At a `CallImport` node the source walker's hook order and the spec's
hook order disagree: the source runs the `Call` hook. -/
theorem codeTrace_specTrace_diverge :
    codeTrace (Expression.CallImport ("f") []) = [HookKind.Call]
    ∧ specTrace (Expression.CallImport ("f") []) = [HookKind.CallImport]
    ∧ [HookKind.Call] ≠ [HookKind.CallImport] := by
  refine ⟨?_, ?_, by decide⟩
  · simp [codeTrace, codeTraceList]
  · simp [specTrace, specTraceList]

-- Claim theorems

/-- Claim C8: the value-type size function returns 4 for i32, 8 for i64,
4 for f32 and 8 for f64, and is fatal (modelled `Option.none`) on the
`none` type. -/
theorem getWasmTypeSize_table :
    getWasmTypeSize WasmType.i32 = some 4
    ∧ getWasmTypeSize WasmType.i64 = some 8
    ∧ getWasmTypeSize WasmType.f32 = some 4
    ∧ getWasmTypeSize WasmType.f64 = some 8
    ∧ getWasmTypeSize WasmType.none = Option.none := by
  refine ⟨rfl, rfl, rfl, rfl, rfl⟩

/-- Claim C9: `Const::set` stores the literal as the node's value and sets
the node's output type to the literal's tag, so after `set` the node's
output type always equals its literal's tag. -/
theorem const_set_stores_value_and_type (c : ConstNode) (v : Literal) :
    (c.set v).value = v
    ∧ (c.set v).type = Literal.type v
    ∧ (c.set v).type = Literal.type (c.set v).value := by
  refine ⟨rfl, rfl, rfl⟩

/-- Claim C10: printing a `Literal` tagged `none` — the state of a
default-constructed `Literal` — is fatal, and exactly the four value-typed
tags print successfully. -/
theorem literal_none_print_fatal :
    printLiteral defaultLiteral = Option.none
    ∧ defaultLiteral.type = WasmType.none
    ∧ (∀ l : Literal, (printLiteral l).isSome = true ↔ l.type ≠ WasmType.none) := by
  refine ⟨rfl, rfl, ?_⟩
  intro l
  cases l <;> simp [printLiteral, Literal.body, Literal.type, defaultLiteral]

/-- Claim C1, counterexample: for a `Compare` node with operand value-type
f64 and operator `Lt`, the printed mnemonic is `f64.lt`, not
`<resultType>.lt` = `i32.lt` built from the node's output type (which the
constructor fixes to i32).  The claim that the value-type component of a
Compare mnemonic is the node's output type is therefore false. -/
theorem compare_mnemonic_counterexample :
    compareMnemonic WasmType.f64 RelationalOp.Lt = ("f64.lt")
    ∧ compareOutputType = WasmType.i32
    ∧ compareMnemonic WasmType.f64 RelationalOp.Lt
        ≠ printWasmType compareOutputType ++ "." ++ relationalOpName RelationalOp.Lt := by
  refine ⟨by decide, by decide, by decide⟩

/-- Claim C1, amended: for every `Compare` node the printed mnemonic is
`<inputType>.<op>` — the value-type component is the node's operand
value-type field, not its output type — with the operator names eq, ne,
lt_s, lt_u, le_s, le_u, gt_s, gt_u, ge_s, ge_u, lt, le, gt, ge; the
node's output type itself is fixed to i32 by the constructor. -/
theorem compare_mnemonic_input_type (inputType : WasmType) (op : RelationalOp) :
    compareMnemonic inputType op
      = printWasmType inputType ++ "." ++ specCompareOpName op
    ∧ compareOutputType = WasmType.i32 := by
  refine ⟨?_, rfl⟩
  cases op <;> rfl

/-- Claim C2: walking a `CallImport` node invokes the `Call` hook, not the
node's own `CallImport` hook — the `dynamic_cast<Call*>` test precedes the
`CallImport` test in `WasmWalker::walk` and already matches a `CallImport`
node, so the dedicated branch and hook are unreachable. -/
theorem walk_callImport_runs_call_hook :
    (walk recorder (Expression.CallImport ("f") []) []).2 = [HookKind.Call]
    ∧ (walk recorder (Expression.CallImport ("f") []) []).1
        = Expression.CallImport ("f") []
    ∧ HookKind.Call ≠ HookKind.CallImport := by
  refine ⟨?_, ?_, by decide⟩ <;> simp [walk, walkList, recorder]

/-- Claim C3: the default (all-identity-hook) walker returns every tree
unchanged, so printing, walking with the identity rewrite and printing
again yields byte-identical text. -/
theorem walk_default_identity (e : Expression) (indent : Nat) :
    walk (defaultWalker Unit) e () = (e, ())
    ∧ print ((walk (defaultWalker Unit) e ()).1) indent = print e indent := by
  have h := walk_default_eq (σ := Unit) e ()
  exact ⟨h, by rw [h]⟩

/-- Claim C4: integer literals print as plain decimal (so i32 literal -7
prints exactly `-7`), and a float literal prints its canonical formatted
text with the two rewrites of `printDouble` applied: a leading `.` is
prefixed with `0` and a leading `-.` becomes `-0.` followed by the rest,
so any formatted text for -0.5 (`-.5` or `-0.5`) prints starting with
`-0.` and any text for 0.25 (`.25` or `0.25`) prints starting with
`0.`. -/
theorem literal_numeric_normalization (rest : List Char) (v : Int) :
    Literal.body (Literal.i32 v) = some (toString v)
    ∧ Literal.body (Literal.i64 v) = some (toString v)
    ∧ Literal.body (Literal.i32 (-7)) = some ("-7")
    ∧ Literal.body (Literal.f32 (String.mk ('-' :: '.' :: rest)))
        = some (printDouble (String.mk ('-' :: '.' :: rest)))
    ∧ printDouble (String.mk ('.' :: rest)) = "0" ++ String.mk ('.' :: rest)
    ∧ printDouble (String.mk ('-' :: '.' :: rest)) = "-0." ++ String.mk rest
    ∧ printDouble (String.mk ('0' :: '.' :: rest)) = "0." ++ String.mk rest
    ∧ printDouble (String.mk ('-' :: '0' :: '.' :: rest)) = "-0." ++ String.mk rest := by
  refine ⟨rfl, rfl, by decide, rfl, rfl, rfl, rfl, rfl⟩

/-- Claim C5: load/store mnemonics derive from (byte width, float flag,
signedness) exactly as the spec states them, and in particular a 1-byte
signed non-float load renders `i32.load8_s`, an 8-byte float load renders
`f64.load`, and a 2-byte non-float store renders `i32.store16`. -/
theorem load_store_mnemonic_table : ∀ (b : Nat) (sg fl : Bool),
    loadMnemonic b sg fl = specLoadMnemonic b sg fl
    ∧ storeMnemonic b fl = specStoreMnemonic b fl
    ∧ loadMnemonic 1 true false = some ("i32.load8_s")
    ∧ loadMnemonic 8 false true = some ("f64.load")
    ∧ storeMnemonic 2 false = some ("i32.store16") := by
  intro b sg fl
  refine ⟨?_, ?_, by decide, by decide, by decide⟩
  · rcases Nat.lt_or_ge b 9 with h | h
    · interval_cases b <;> cases sg <;> cases fl <;> decide
    · have h4 : ¬ b < 4 := by omega
      have hne4 : b ≠ 4 := by omega
      have hne8 : b ≠ 8 := by omega
      simp [loadMnemonic, specLoadMnemonic, getWasmType, specTypeFromSizeAndKind,
        h4, hne4, hne8]
  · rcases Nat.lt_or_ge b 9 with h | h
    · interval_cases b <;> cases fl <;> decide
    · have h4 : ¬ b < 4 := by omega
      have hne4 : b ≠ 4 := by omega
      have hne8 : b ≠ 8 := by omega
      simp [storeMnemonic, specStoreMnemonic, getWasmType, specTypeFromSizeAndKind,
        h4, hne4, hne8]

/-- Claim C6: absent optional children are passed through unchanged with no
hook invoked and no state change, for any hook set; walking an `If` with no
false branch or a `Break` with no condition and value invokes hooks only
for the present children and the node itself; and the printer simply omits
the absent child (an `If` with no false branch prints only its condition
and true branch, a bare `Break` prints only its label). -/
theorem absent_optional_children (σ : Type) (w : WasmWalker σ) (s : σ) :
    walkOpt w Option.none s = (Option.none, s)
    ∧ (walk recorder (Expression.If Expression.Nop Expression.Nop Option.none) []).2
        = [HookKind.Nop, HookKind.Nop, HookKind.If]
    ∧ walk (defaultWalker Unit) (Expression.If Expression.Nop Expression.Nop Option.none) ()
        = (Expression.If Expression.Nop Expression.Nop Option.none, ())
    ∧ (walk recorder (Expression.Break ("l") Option.none Option.none) []).2
        = [HookKind.Break]
    ∧ print (Expression.If Expression.Nop Expression.Nop Option.none) 0
        = some ("(if\n  (nop)\n  (nop)\n)")
    ∧ print (Expression.Break ("l") Option.none Option.none) 0
        = some ("(break $l\n)") := by
  refine ⟨by simp [walkOpt], ?_, ?_, ?_, ?_, ?_⟩
  · simp [walk, walkOpt, recorder]
  · simp [walk, walkOpt, defaultWalker]
  · simp [walk, walkOpt, recorder]
  · simp [print, printFullLine, printOptLine, doIndent]
  · simp [print, printOptLine, doIndent, printName]

/-- Claim C7: printing a `Load` or `Store` whose offset is non-zero is
fatal (the `assert(!offset)` fails, modelled `Option.none`), and printing
succeeds only when the offset is zero. -/
theorem nonzero_offset_print_fatal :
    ∀ (b : Nat) (sg fl : Bool) (off : Int) (al : Nat) (p v : Expression) (i : Nat),
    (off ≠ 0 →
      print (Expression.Load b sg fl off al p) i = Option.none
      ∧ print (Expression.Store b fl off al p v) i = Option.none)
    ∧ (print (Expression.Load b sg fl off al p) i ≠ Option.none → off = 0)
    ∧ (print (Expression.Store b fl off al p v) i ≠ Option.none → off = 0) := by
  intro b sg fl off al p v i
  have hl : off ≠ 0 → print (Expression.Load b sg fl off al p) i = Option.none := by
    intro hoff
    cases hm : loadMnemonic b sg fl <;> simp [print, hm, hoff]
  have hs : off ≠ 0 → print (Expression.Store b fl off al p v) i = Option.none := by
    intro hoff
    cases hm : storeMnemonic b fl <;> simp [print, hm, hoff]
  refine ⟨fun hoff => ⟨hl hoff, hs hoff⟩, fun hp => ?_, fun hp => ?_⟩
  · by_contra h0
    exact hp (hl h0)
  · by_contra h0
    exact hp (hs h0)

/-- Witness for C7: a 4-byte load and store with offset 1 both fail to
print. -/
theorem nonzero_offset_print_fatal_witness :
    print (Expression.Load 4 false false 1 0 Expression.Nop) 0 = Option.none
    ∧ print (Expression.Store 4 false 1 0 Expression.Nop Expression.Nop) 0 = Option.none := by
  exact (nonzero_offset_print_fatal 4 false false 1 0 Expression.Nop Expression.Nop 0).1
    (by decide)

end wasm
